import Mathlib

/-!
Verification development for the `wolsim` agent-based Wolbachia/virus
simulation (`src/wolsim/model.py`).

The Python class `AgentBasedModel` is embedded shallowly:

* machine floats are modelled as exact rationals (every value the virus
  grids ever hold is an integer, so float arithmetic on them is exact);
* `numpy` / `random` stochastic draws are supplied by an explicit oracle:
  `np.random.poisson` draws are arbitrary naturals (numpy's Poisson sampler
  returns non-negative integers), `random.choice` directions are arbitrary
  direction values, `np.random.choice((0,1), p)` Bernoulli draws are
  arbitrary booleans, and `np.exp` (a float approximation of the
  exponential) is an arbitrary rational function;
* the external PDE solve in `update_concentration` (the `py-pde` package,
  out of scope for the repository core) is modelled as an oracle field
  returned per invocation;
* Python dictionaries keyed by variant index become `Nat -> Option`
  functions, and a missing key (a `KeyError`), an out-of-bounds numpy
  index, an invalid shape broadcast or an invalid distribution parameter
  make the modelled operation return `none`.

Counters `t` (Poisson / direction draws) and `u` (PDE solves and Bernoulli
blocks) index into the oracle streams so successive calls see independent
draws.
-/

namespace Wolsim

/-- Direction of a single diffusion hop, as drawn by
`random.choice(['left', 'right', 'up', 'down'])` in `_diffuse_virus`. -/
inductive Dir
  | left
  | right
  | up
  | down
deriving DecidableEq

/-- A 2D numpy array of floats, modelled as a total function on
coordinates with exact rational values.  Only the cells with both
coordinates below the grid dimensions correspond to real numpy entries. -/
def Grid : Type := ℕ × ℕ → ℚ

/-- The state of a Python `AgentBasedModel` instance: grid dimensions,
mode, the per-variant virus grids, the concentration and wolbachia grids,
the three per-variant parameter dictionaries and the two histories. -/
structure AgentBasedModel where
  n_x : ℕ
  n_y : ℕ
  num_virus : ℕ
  model : String
  virus_grid : ℕ → Grid
  conc_grid : Grid
  wolbachia_grid : Grid
  virus_diffuse_rate : ℕ → Option ℚ
  virus_carrying_capacity : ℕ → Option ℚ
  virus_growth_rate : ℕ → Option ℚ
  virus_grid_history : List (ℕ → Grid)
  concentration_history : List Grid

/-- Oracle supplying every stochastic draw and every external-solver
result consumed by the simulation.  `pois t` is the `t`-th
`np.random.poisson` draw (always a natural number), `dir t` the `t`-th
`random.choice` direction, `bern u` the Bernoulli block drawn by the
`u`-th `np.random.choice((0,1), ...)` call, `conc u` the concentration
field returned by the `u`-th PDE solve, and `exp` the float
implementation of `np.exp`. -/
structure Oracle where
  pois : ℕ → ℕ
  dir : ℕ → Dir
  bern : ℕ → ℕ × ℕ → Bool
  conc : ℕ → Grid
  exp : ℚ → ℚ

/-- Coordinate offset of one hop: `left` is `(i-1, j)`, `right` is
`(i+1, j)`, `up` is `(i, j+1)`, `down` is `(i, j-1)` (lines 165-175). -/
def dirDelta : Dir → ℤ × ℤ
  | Dir.left => (-1, 0)
  | Dir.right => (1, 0)
  | Dir.up => (0, 1)
  | Dir.down => (0, -1)

/-- Write value `x` into cell `p` of the virus grid of variant `k`. -/
def setCell (M : AgentBasedModel) (k : ℕ) (p : ℕ × ℕ) (x : ℚ) :
    AgentBasedModel :=
  { M with virus_grid :=
      Function.update M.virus_grid k (Function.update (M.virus_grid k) p x) }

/-- The `AgentBasedModel.__init__` constructor (lines 15-50): `signalling`
configures one virus variant, `genetic` two, any other mode string raises
`ValueError`.  All grids start zero-filled, the parameter dictionaries
empty and the histories empty. -/
def mkAgentBasedModel (n_x n_y : ℕ) (model : String) :
    Option AgentBasedModel :=
  if model = "signalling" then
    some { n_x := n_x, n_y := n_y, num_virus := 1, model := model,
           virus_grid := fun _ => fun _ => 0,
           conc_grid := fun _ => 0,
           wolbachia_grid := fun _ => 0,
           virus_diffuse_rate := fun _ => none,
           virus_carrying_capacity := fun _ => none,
           virus_growth_rate := fun _ => none,
           virus_grid_history := [],
           concentration_history := [] }
  else if model = "genetic" then
    some { n_x := n_x, n_y := n_y, num_virus := 2, model := model,
           virus_grid := fun _ => fun _ => 0,
           conc_grid := fun _ => 0,
           wolbachia_grid := fun _ => 0,
           virus_diffuse_rate := fun _ => none,
           virus_carrying_capacity := fun _ => none,
           virus_growth_rate := fun _ => none,
           virus_grid_history := [],
           concentration_history := [] }
  else none

/-- `set_virus_parameters` (lines 52-68): stores the three parameters in
the per-variant dictionaries, with no validation of any argument. -/
def set_virus_parameters (M : AgentBasedModel) (diffuse_rate growth_rate
    carrying_capacity : ℚ) (virus_num : ℕ) : AgentBasedModel :=
  { M with
    virus_diffuse_rate :=
      Function.update M.virus_diffuse_rate virus_num (some diffuse_rate),
    virus_growth_rate :=
      Function.update M.virus_growth_rate virus_num (some growth_rate),
    virus_carrying_capacity :=
      Function.update M.virus_carrying_capacity virus_num
        (some carrying_capacity) }

/-- `update_concentration` (lines 106-138): runs the external PDE solver
and overwrites `conc_grid` with its output.  The solver is out of scope
(the `py-pde` package), so its result is taken from the oracle; the call
counter `u` advances so distinct calls see distinct solver outputs. -/
def update_concentration (M : AgentBasedModel) (O : Oracle) (u : ℕ) :
    AgentBasedModel × ℕ :=
  ({ M with conc_grid := O.conc u }, u + 1)

/-- `initialize_wolbachia` (lines 70-83), modelled under the Lean name
`init_wolbachia`: draws a 15x15 Bernoulli(p) block with
`np.random.choice((0, 1), size=(15, 15), p=[1-p, p])` — which raises
`ValueError` unless `0 <= p <= 1` — and assigns it to
`wolbachia_grid[:15, :15]`, which raises a broadcast `ValueError` unless
both grid dimensions are at least 15.  On success it then recomputes the
concentration grid and appends a deep copy of it to
`concentration_history`. -/
def init_wolbachia (M : AgentBasedModel) (O : Oracle) (p : ℚ) (u : ℕ) :
    Option (AgentBasedModel × ℕ) :=
  if p < 0 ∨ 1 < p then none
  else if M.n_x < 15 ∨ M.n_y < 15 then none
  else
    let M1 := { M with wolbachia_grid := fun q =>
      if q.1 < 15 ∧ q.2 < 15 then (if O.bern u q then 1 else 0)
      else M.wolbachia_grid q }
    some ({ M1 with
              conc_grid := O.conc u
              concentration_history :=
                M1.concentration_history ++ [O.conc u] }, u + 1)

/-- `initialize_wolbachia_barrier` (lines 85-89), modelled under the Lean
name `init_wolbachia_barrier`: sets rows 7..12 (clamped to the grid, all
columns) of the wolbachia grid to 1 — numpy slice assignment with a
matching right-hand shape never fails — then recomputes the concentration
grid and appends it to `concentration_history`. -/
def init_wolbachia_barrier (M : AgentBasedModel) (O : Oracle) (u : ℕ) :
    AgentBasedModel × ℕ :=
  let M1 := { M with wolbachia_grid := fun q =>
    if 7 ≤ q.1 ∧ q.1 < 13 ∧ q.1 < M.n_x ∧ q.2 < M.n_y then 1
    else M.wolbachia_grid q }
  ({ M1 with
       conc_grid := O.conc u
       concentration_history := M1.concentration_history ++ [O.conc u] },
   u + 1)

/-- `initialize_virus` (lines 95-104), modelled under the Lean name
`init_virus`: sets cell `(15, 15)` of `virus_grid[virus_num]` to 1 and
appends a deep copy of the whole virus grid dictionary to
`virus_grid_history`.  The dictionary access raises `KeyError` when
`virus_num` is not a configured variant, and the numpy index `[15, 15]`
raises `IndexError` unless both grid dimensions are at least 16. -/
def init_virus (M : AgentBasedModel) (virus_num : ℕ) :
    Option AgentBasedModel :=
  if virus_num < M.num_virus then
    if 15 < M.n_x ∧ 15 < M.n_y then
      let M1 := setCell M virus_num (15, 15) 1
      some { M1 with virus_grid_history :=
               M1.virus_grid_history ++ [M1.virus_grid] }
    else none
  else none

/-- `initialize_virus_barrier` (lines 91-93), modelled under the Lean
name `init_virus_barrier`: sets cell `(2, 10)` of `virus_grid[0]` to 1
(an `IndexError` unless the grid is at least 3x11) and appends the virus
grids to history. -/
def init_virus_barrier (M : AgentBasedModel) : Option AgentBasedModel :=
  if 2 < M.n_x ∧ 10 < M.n_y then
    let M1 := setCell M 0 (2, 10) 1
    some { M1 with virus_grid_history :=
             M1.virus_grid_history ++ [M1.virus_grid] }
  else none

/-- Number of loop iterations of `for _ in range(int(v))` (line 155):
Python `int` truncates toward zero and `range` of a non-positive bound is
empty, so the iteration count is `max 0 ⌊v⌋` — for the non-negative `v`
arising in the program this is exactly `v`'s floor. -/
def floorCount (v : ℚ) : ℕ := (Rat.floor v).toNat

/-- The inner hop loop of `_diffuse_virus` (lines 160-183) for a single
individual: `n` hops remain, the individual currently sits at `coords`,
and `(i, j)` is the cell the individual started from.  Each hop draws a
direction and decrements the cell at the tracked `coords`, but computes
the destination `new_coords` from the ORIGINAL cell `(i, j)` — lines
165-175 build `(i-1, j)`, `(i+1, j)`, `(i, j+1)`, `(i, j-1)` from the
loop variables `i`, `j`, not from `coords` — so every destination is a
neighbour of the origin cell (the walk is origin-anchored: an
individual can return to, or stay on, a neighbour of `(i, j)`, and can
only exit the grid when `(i, j)` itself is an edge cell).  If the
destination is in bounds it is incremented and becomes the new current
position; otherwise the individual has left the grid and its hop loop
stops.  Returns the updated grid of variant `k`, the advanced draw
counter and whether the individual exited the grid. -/
def hopLoop (nx ny i j : ℕ) (dirs : ℕ → Dir) :
    ℕ → ℕ × ℕ → Grid → ℕ → Grid × ℕ × Bool
  | 0, _, g, t => (g, t, false)
  | n + 1, coords, g, t =>
    let d := dirs t
    let g1 := Function.update g coords (g coords - 1)
    let xn : ℤ := (i : ℤ) + (dirDelta d).1
    let yn : ℤ := (j : ℤ) + (dirDelta d).2
    if 0 ≤ xn ∧ xn < (nx : ℤ) ∧ 0 ≤ yn ∧ yn < (ny : ℤ) then
      let nc : ℕ × ℕ := (xn.toNat, yn.toNat)
      hopLoop nx ny i j dirs n nc (Function.update g1 nc (g1 nc + 1)) (t + 1)
    else (g1, t + 1, true)

/-- The outer individual loop of `_diffuse_virus` (lines 155-183): `m`
individuals remain to be diffused from cell `(i, j)`; each draws its own
Poisson number of hops and then runs the hop loop starting at `(i, j)`.
Returns the updated grid, the advanced draw counter and the total number
of individuals that exited the grid during this pass. -/
def indivLoop (nx ny : ℕ) (pois : ℕ → ℕ) (dirs : ℕ → Dir) (i j : ℕ) :
    ℕ → Grid → ℕ → Grid × ℕ × ℕ
  | 0, g, t => (g, t, 0)
  | m + 1, g, t =>
    let nd := pois t
    let r1 := hopLoop nx ny i j dirs nd (i, j) g (t + 1)
    let r2 := indivLoop nx ny pois dirs i j m r1.1 r1.2.1
    (r2.1, r2.2.1, r2.2.2 + (if r1.2.2 then 1 else 0))

/-- `_diffuse_virus` (lines 141-183), modelled under the Lean name
`diffuse_virus`: reads the current population `v` of cell `(i, j)` of
variant `k` and diffuses `int(v)` individuals.  When at least one
individual is to be diffused, the Poisson draw for the first individual
reads `virus_diffuse_rate[k]` — a `KeyError` when the parameter was never
set, and a numpy `ValueError` when it is negative (`lam < 0`).  Returns
the updated model, the advanced draw counter and the number of
individuals that left the grid. -/
def diffuse_virus (M : AgentBasedModel) (O : Oracle) (k i j : ℕ) (t : ℕ) :
    Option (AgentBasedModel × ℕ × ℕ) :=
  if floorCount (M.virus_grid k (i, j)) = 0 then some (M, t, 0)
  else
    (M.virus_diffuse_rate k).bind fun lam =>
      if lam < 0 then none
      else
        let r := indivLoop M.n_x M.n_y O.pois O.dir i j
          (floorCount (M.virus_grid k (i, j))) (M.virus_grid k) t
        some ({ M with virus_grid := Function.update M.virus_grid k r.1 },
              r.2.1, r.2.2)

/-- The growth expression of `_grow_virus` (lines 197-207): with
`v = virus_grid[k][i, j]` and `total` the sum of all variants' values at
`(i, j)`, the signalling model computes
`r * exp(-20 * conc[i, j]) * v * (1 - total / K)` and the genetic model
`r * v * (1 - total / K)`. -/
def growthExpr (M : AgentBasedModel) (O : Oracle) (k : ℕ) (ij : ℕ × ℕ)
    (r K : ℚ) : ℚ :=
  let v := M.virus_grid k ij
  let total := ∑ k' in Finset.range M.num_virus, M.virus_grid k' ij
  if M.model = "signalling" then
    r * O.exp (-20 * M.conc_grid ij) * v * (1 - total / K)
  else
    r * v * (1 - total / K)

/-- `_grow_virus` (lines 185-220), modelled under the Lean name
`grow_virus`: computes the growth expression (a `KeyError` when the
growth rate or carrying capacity of variant `k` is missing).  When growth
is positive a Poisson draw is added — to `virus_grid[k]` in the
single-virus model, and in the genetic model to `virus_grid[1]` when the
cell carries wolbachia and to `virus_grid[k]` otherwise.  When growth is
negative a Poisson draw is subtracted from `v`, clamped at 0.  When
growth is exactly 0 nothing changes and no draw is consumed. -/
def grow_virus (M : AgentBasedModel) (O : Oracle) (k i j : ℕ) (t : ℕ) :
    Option (AgentBasedModel × ℕ) :=
  (M.virus_growth_rate k).bind fun r =>
    (M.virus_carrying_capacity k).bind fun K =>
      if 0 < growthExpr M O k (i, j) r K then
        if M.num_virus = 1 then
          some (setCell M k (i, j) (M.virus_grid k (i, j) + O.pois t), t + 1)
        else if M.wolbachia_grid (i, j) = 1 then
          some (setCell M 1 (i, j) (M.virus_grid 1 (i, j) + O.pois t), t + 1)
        else
          some (setCell M k (i, j) (M.virus_grid k (i, j) + O.pois t), t + 1)
      else if growthExpr M O k (i, j) r K < 0 then
        some (setCell M k (i, j)
          (max 0 (M.virus_grid k (i, j) - O.pois t)), t + 1)
      else some (M, t)

/-- The body of the double loop of `update_virus` (lines 225-230) at one
cell: skip the cell when its current population is not positive,
otherwise grow then diffuse at that cell. -/
def cellUpdate (O : Oracle) (k : ℕ) (Mt : AgentBasedModel × ℕ)
    (ij : ℕ × ℕ) : Option (AgentBasedModel × ℕ) :=
  if 0 < Mt.1.virus_grid k ij then
    (grow_virus Mt.1 O k ij.1 ij.2 Mt.2).bind fun Mt1 =>
      (diffuse_virus Mt1.1 O k ij.1 ij.2 Mt1.2).map fun r => (r.1, r.2.1)
  else some Mt

/-- Row-major cell traversal order of `update_virus`: `i` outer from 0 to
`n_x - 1`, `j` inner from 0 to `n_y - 1`. -/
def cellList (nx ny : ℕ) : List (ℕ × ℕ) :=
  (List.range nx).flatMap fun i => (List.range ny).map fun j => (i, j)

/-- Sequential execution of `cellUpdate` over a list of cells, stopping
at the first failure (a raised Python exception). -/
def cellsLoop (O : Oracle) (k : ℕ) :
    List (ℕ × ℕ) → AgentBasedModel × ℕ → Option (AgentBasedModel × ℕ)
  | [], Mt => some Mt
  | ij :: rest, Mt =>
    (cellUpdate O k Mt ij).bind fun Mt1 => cellsLoop O k rest Mt1

/-- `update_virus` (lines 222-230): one full row-major sweep of grow +
diffuse for variant `k`. -/
def update_virus (M : AgentBasedModel) (O : Oracle) (k : ℕ) (t : ℕ) :
    Option (AgentBasedModel × ℕ) :=
  cellsLoop O k (cellList M.n_x M.n_y) (M, t)

/-- Sequential execution of `update_virus` over the configured variant
indices in ascending order (line 235). -/
def virusLoop (O : Oracle) :
    List ℕ → AgentBasedModel × ℕ → Option (AgentBasedModel × ℕ)
  | [], Mt => some Mt
  | k :: rest, Mt =>
    (update_virus Mt.1 O k Mt.2).bind fun Mt1 => virusLoop O rest Mt1

/-- `run_time_step` (lines 232-242): update every variant; in the
single-virus model recompute the concentration grid and append it to
`concentration_history`; finally append a deep copy of the virus grids to
`virus_grid_history`. -/
def run_time_step (M : AgentBasedModel) (O : Oracle) (t u : ℕ) :
    Option (AgentBasedModel × ℕ × ℕ) :=
  (virusLoop O (List.range M.num_virus) (M, t)).bind fun Mt1 =>
    if Mt1.1.num_virus = 1 then
      some ({ Mt1.1 with
                conc_grid := O.conc u
                concentration_history :=
                  Mt1.1.concentration_history ++ [O.conc u]
                virus_grid_history :=
                  Mt1.1.virus_grid_history ++ [Mt1.1.virus_grid] },
            Mt1.2, u + 1)
    else
      some ({ Mt1.1 with virus_grid_history :=
                Mt1.1.virus_grid_history ++ [Mt1.1.virus_grid] }, Mt1.2, u)

/-! ### Reachability: the public call surface of `AgentBasedModel` -/

/-- One successful public call on a live model, relating the state (model,
draw counter, solver counter) before the call to the state after it.  A
call that raises a Python exception produces no successor state.
`set_params` carries the spec's validity constraints on the stored
parameters (diffuse rate ≥ 0, carrying capacity > 0): the source stores
them unvalidated, but with a zero carrying capacity the code's growth
computation divides by zero in floats (an infinity that makes
`np.random.poisson` raise), a path the exact rational embedding does not
mirror, so reachability quantifies over the valid-parameter runs the
claims describe. -/
inductive ModelCall (O : Oracle) :
    AgentBasedModel × ℕ × ℕ → AgentBasedModel × ℕ × ℕ → Prop
  | set_params (M : AgentBasedModel) (t u : ℕ) (d g c : ℚ) (k : ℕ) :
      0 ≤ d → 0 < c →
      ModelCall O (M, t, u) (set_virus_parameters M d g c k, t, u)
  | wolbachia (M : AgentBasedModel) (t u : ℕ) (p : ℚ)
      (M' : AgentBasedModel) (u' : ℕ) :
      init_wolbachia M O p u = some (M', u') →
      ModelCall O (M, t, u) (M', t, u')
  | wolbachia_barrier (M : AgentBasedModel) (t u : ℕ) :
      ModelCall O (M, t, u)
        ((init_wolbachia_barrier M O u).1, t, (init_wolbachia_barrier M O u).2)
  | virus (M : AgentBasedModel) (t u vn : ℕ) (M' : AgentBasedModel) :
      init_virus M vn = some M' →
      ModelCall O (M, t, u) (M', t, u)
  | virus_barrier (M : AgentBasedModel) (t u : ℕ) (M' : AgentBasedModel) :
      init_virus_barrier M = some M' →
      ModelCall O (M, t, u) (M', t, u)
  | time_step (M : AgentBasedModel) (t u : ℕ) (M' : AgentBasedModel)
      (t' u' : ℕ) :
      run_time_step M O t u = some (M', t', u') →
      ModelCall O (M, t, u) (M', t', u')

/-- States reachable from a freshly constructed model by any sequence of
successful public calls, under a fixed oracle of stochastic draws. -/
inductive Reachable (O : Oracle) : AgentBasedModel × ℕ × ℕ → Prop
  | ctor (n_x n_y : ℕ) (mdl : String) (M : AgentBasedModel) (t u : ℕ) :
      mkAgentBasedModel n_x n_y mdl = some M → Reachable O (M, t, u)
  | call (s s' : AgentBasedModel × ℕ × ℕ) :
      Reachable O s → ModelCall O s s' → Reachable O s'

/-! ### The integer-valuedness invariant of the virus grids -/

/-- A grid all of whose entries are (casts of) natural numbers. -/
def NatGrid (g : Grid) : Prop := ∀ p, ∃ n : ℕ, g p = (n : ℚ)

/-- All virus grids of the model are natural-valued. -/
def VirusNat (M : AgentBasedModel) : Prop := ∀ k, NatGrid (M.virus_grid k)

theorem floorCount_natCast (n : ℕ) : floorCount (n : ℚ) = n := by
  simp [floorCount, Rat.floor_def']

theorem natGrid_nonneg {g : Grid} (hg : NatGrid g) (p : ℕ × ℕ) : 0 ≤ g p := by
  obtain ⟨n, hn⟩ := hg p
  rw [hn]
  exact Nat.cast_nonneg n

theorem natGrid_update {g : Grid} (hg : NatGrid g) {p : ℕ × ℕ} {x : ℚ}
    (hx : ∃ n : ℕ, x = (n : ℚ)) : NatGrid (Function.update g p x) := by
  intro q
  rcases eq_or_ne q p with h | h
  · subst h
    simpa [Function.update_apply] using hx
  · simpa [Function.update_apply, h] using hg q

theorem natGrid_clamp (n d : ℕ) :
    ∃ m : ℕ, max 0 ((n : ℚ) - (d : ℚ)) = (m : ℚ) := by
  rcases le_or_lt (d : ℚ) (n : ℚ) with h | h
  · refine ⟨n - d, ?_⟩
    have hd : d ≤ n := by exact_mod_cast h
    rw [max_eq_right (by linarith), Nat.cast_sub hd]
  · exact ⟨0, by rw [max_eq_left (by linarith), Nat.cast_zero]⟩

/-- Invariant of the inner hop loop: if the grid is natural-valued and
the moving individual's current cell holds at least one unit, the grid
stays natural-valued, and no cell other than the starting cell can end
lower than it began (the starting cell loses at most one unit: the
individual itself). -/
theorem hopLoop_invariant (nx ny i j : ℕ) (dirs : ℕ → Dir) :
    ∀ (n : ℕ) (c : ℕ × ℕ) (g : Grid) (t : ℕ),
      NatGrid g → 1 ≤ g c →
      NatGrid (hopLoop nx ny i j dirs n c g t).1 ∧
      ∀ p, g p - (if p = c then 1 else 0)
        ≤ (hopLoop nx ny i j dirs n c g t).1 p := by
  intro n
  induction n with
  | zero =>
    intro c g t hg _
    refine ⟨hg, fun p => ?_⟩
    simp only [hopLoop]
    rcases eq_or_ne p c with h | h <;> simp [h]
  | succ n ih =>
    intro c g t hg hc
    obtain ⟨m, hm⟩ := hg c
    have hm1 : 1 ≤ m := by
      rw [hm] at hc
      exact_mod_cast hc
    have hg1 : NatGrid (Function.update g c (g c - 1)) := by
      refine natGrid_update hg ⟨m - 1, ?_⟩
      rw [hm, Nat.cast_sub hm1, Nat.cast_one]
    have hg1p : ∀ p, Function.update g c (g c - 1) p
        = g p - (if p = c then 1 else 0) := by
      intro p
      rcases eq_or_ne p c with h | h <;> simp [Function.update_apply, h]
    simp only [hopLoop]
    split
    · -- destination in bounds: continue hopping from the new cell
      set g1 := Function.update g c (g c - 1) with hdefg1
      set nc : ℕ × ℕ :=
        (((i : ℤ) + (dirDelta (dirs t)).1).toNat,
         ((j : ℤ) + (dirDelta (dirs t)).2).toNat) with hdefnc
      have hg2 : NatGrid (Function.update g1 nc (g1 nc + 1)) := by
        refine natGrid_update hg1 ?_
        obtain ⟨m1, hm1'⟩ := hg1 nc
        exact ⟨m1 + 1, by rw [hm1']; push_cast; ring⟩
      have hc2 : 1 ≤ Function.update g1 nc (g1 nc + 1) nc := by
        have := natGrid_nonneg hg1 nc
        simp only [Function.update_same]
        linarith
      obtain ⟨ha, hb⟩ := ih nc (Function.update g1 nc (g1 nc + 1)) (t + 1) hg2 hc2
      refine ⟨ha, fun p => ?_⟩
      have hkey : Function.update g1 nc (g1 nc + 1) p
          - (if p = nc then 1 else 0) = g1 p := by
        rcases eq_or_ne p nc with h | h <;> simp [Function.update_apply, h]
      calc g p - (if p = c then 1 else 0) = g1 p := (hg1p p).symm
        _ = Function.update g1 nc (g1 nc + 1) p - (if p = nc then 1 else 0) :=
            hkey.symm
        _ ≤ _ := by
            have := hb p
            linarith [hb p]
    · -- destination out of bounds: the individual leaves the grid
      exact ⟨hg1, fun p => le_of_eq (hg1p p).symm⟩

/-- Invariant of the individual loop: diffusing `m` individuals out of a
cell holding at least `m` units keeps every virus grid entry a natural
number. -/
theorem indivLoop_invariant (nx ny : ℕ) (pois : ℕ → ℕ) (dirs : ℕ → Dir)
    (i j : ℕ) :
    ∀ (m : ℕ) (g : Grid) (t : ℕ), NatGrid g → (m : ℚ) ≤ g (i, j) →
      NatGrid (indivLoop nx ny pois dirs i j m g t).1 := by
  intro m
  induction m with
  | zero => intro g t hg _; simpa [indivLoop] using hg
  | succ m ih =>
    intro g t hg hcount
    have hone : 1 ≤ g (i, j) := by
      have : (1 : ℚ) ≤ (m + 1 : ℕ) := by exact_mod_cast Nat.succ_le_succ (Nat.zero_le m)
      calc (1 : ℚ) ≤ ((m + 1 : ℕ) : ℚ) := this
        _ ≤ g (i, j) := hcount
    obtain ⟨ha, hb⟩ :=
      hopLoop_invariant nx ny i j dirs (pois t) (i, j) g (t + 1) hg hone
    simp only [indivLoop]
    refine ih _ _ ha ?_
    have hstep := hb (i, j)
    rw [if_pos rfl] at hstep
    push_cast at hcount
    linarith

theorem diffuse_virus_natGrid {M : AgentBasedModel} {O : Oracle}
    {k i j t : ℕ} {M' : AgentBasedModel} {t' ex : ℕ}
    (hM : VirusNat M)
    (h : diffuse_virus M O k i j t = some (M', t', ex)) : VirusNat M' := by
  simp only [diffuse_virus] at h
  by_cases h0 : floorCount (M.virus_grid k (i, j)) = 0
  · rw [if_pos h0] at h
    cases h
    exact hM
  · rw [if_neg h0, Option.bind_eq_some] at h
    obtain ⟨lam, _, h⟩ := h
    by_cases hneg : lam < 0
    · rw [if_pos hneg] at h
      cases h
    · rw [if_neg hneg, Option.some.injEq, Prod.mk.injEq] at h
      obtain ⟨hM', -⟩ := h
      subst hM'
      intro k'
      rcases eq_or_ne k' k with hk | hk
      · subst hk
        simp only [Function.update_same]
        obtain ⟨n, hn⟩ := hM k' (i, j)
        refine indivLoop_invariant M.n_x M.n_y O.pois O.dir i j _ _ t
          (hM k') ?_
        rw [hn, floorCount_natCast]
      · simpa [Function.update_apply, hk] using hM k'

theorem setCell_natGrid {M : AgentBasedModel} {k : ℕ} {p : ℕ × ℕ} {x : ℚ}
    (hM : VirusNat M) (hx : ∃ n : ℕ, x = (n : ℚ)) :
    VirusNat (setCell M k p x) := by
  intro k'
  rcases eq_or_ne k' k with hk | hk
  · subst hk
    simp only [setCell, Function.update_same]
    exact natGrid_update (hM k') hx
  · simpa [setCell, Function.update_apply, hk] using hM k'

theorem grow_virus_natGrid {M : AgentBasedModel} {O : Oracle}
    {k i j t : ℕ} {M' : AgentBasedModel} {t' : ℕ}
    (hM : VirusNat M)
    (h : grow_virus M O k i j t = some (M', t')) : VirusNat M' := by
  simp only [grow_virus, Option.bind_eq_some] at h
  obtain ⟨r, -, K, -, h⟩ := h
  split at h
  · split at h
    · cases h
      refine setCell_natGrid hM ?_
      obtain ⟨n, hn⟩ := hM k (i, j)
      exact ⟨n + O.pois t, by rw [hn]; push_cast; ring⟩
    · split at h
      · cases h
        refine setCell_natGrid hM ?_
        obtain ⟨n, hn⟩ := hM 1 (i, j)
        exact ⟨n + O.pois t, by rw [hn]; push_cast; ring⟩
      · cases h
        refine setCell_natGrid hM ?_
        obtain ⟨n, hn⟩ := hM k (i, j)
        exact ⟨n + O.pois t, by rw [hn]; push_cast; ring⟩
  · split at h
    · cases h
      refine setCell_natGrid hM ?_
      obtain ⟨n, hn⟩ := hM k (i, j)
      rw [hn]
      exact natGrid_clamp n (O.pois t)
    · cases h
      exact hM

theorem cellUpdate_natGrid {O : Oracle} {k : ℕ}
    {Mt Mt' : AgentBasedModel × ℕ} {ij : ℕ × ℕ}
    (hM : VirusNat Mt.1) (h : cellUpdate O k Mt ij = some Mt') :
    VirusNat Mt'.1 := by
  simp only [cellUpdate] at h
  split at h
  · rw [Option.bind_eq_some] at h
    obtain ⟨Mt1, hg, h⟩ := h
    rw [Option.map_eq_some'] at h
    obtain ⟨r, hd, h⟩ := h
    subst h
    exact diffuse_virus_natGrid (grow_virus_natGrid hM hg) hd
  · cases h
    exact hM

theorem cellsLoop_natGrid {O : Oracle} {k : ℕ} :
    ∀ (l : List (ℕ × ℕ)) (Mt Mt' : AgentBasedModel × ℕ),
      VirusNat Mt.1 → cellsLoop O k l Mt = some Mt' → VirusNat Mt'.1 := by
  intro l
  induction l with
  | nil =>
    intro Mt Mt' hM h
    cases h
    exact hM
  | cons ij rest ih =>
    intro Mt Mt' hM h
    rw [cellsLoop, Option.bind_eq_some] at h
    obtain ⟨Mt1, hc, h⟩ := h
    exact ih Mt1 Mt' (cellUpdate_natGrid hM hc) h

theorem virusLoop_natGrid {O : Oracle} :
    ∀ (l : List ℕ) (Mt Mt' : AgentBasedModel × ℕ),
      VirusNat Mt.1 → virusLoop O l Mt = some Mt' → VirusNat Mt'.1 := by
  intro l
  induction l with
  | nil =>
    intro Mt Mt' hM h
    cases h
    exact hM
  | cons k rest ih =>
    intro Mt Mt' hM h
    rw [virusLoop, Option.bind_eq_some] at h
    obtain ⟨Mt1, hu, h⟩ := h
    exact ih Mt1 Mt' (cellsLoop_natGrid _ _ _ hM hu) h

theorem run_time_step_natGrid {M : AgentBasedModel} {O : Oracle}
    {t u : ℕ} {M' : AgentBasedModel} {t' u' : ℕ}
    (hM : VirusNat M)
    (h : run_time_step M O t u = some (M', t', u')) : VirusNat M' := by
  rw [run_time_step, Option.bind_eq_some] at h
  obtain ⟨Mt1, hv, h⟩ := h
  have h1 : VirusNat Mt1.1 := virusLoop_natGrid _ _ _ hM hv
  split at h <;> cases h <;> exact h1

theorem modelCall_natGrid {O : Oracle} {s s' : AgentBasedModel × ℕ × ℕ}
    (hM : VirusNat s.1) (h : ModelCall O s s') : VirusNat s'.1 := by
  cases h with
  | set_params M t u d g c k hd hc => exact hM
  | wolbachia M t u p M' u' hcall =>
    unfold init_wolbachia at hcall
    split at hcall
    · cases hcall
    split at hcall
    · cases hcall
    cases hcall
    exact hM
  | wolbachia_barrier M t u => exact hM
  | virus M t u vn M' hcall =>
    unfold init_virus at hcall
    split at hcall
    · split at hcall
      · cases hcall
        exact setCell_natGrid hM ⟨1, by norm_num⟩
      · cases hcall
    · cases hcall
  | virus_barrier M t u M' hcall =>
    unfold init_virus_barrier at hcall
    split at hcall
    · cases hcall
      exact setCell_natGrid hM ⟨1, by norm_num⟩
    · cases hcall
  | time_step M t u M' t' u' hcall => exact run_time_step_natGrid hM hcall

theorem mk_natGrid {n_x n_y : ℕ} {mdl : String} {M : AgentBasedModel}
    (h : mkAgentBasedModel n_x n_y mdl = some M) : VirusNat M := by
  unfold mkAgentBasedModel at h
  split at h
  · cases h
    exact fun k p => ⟨0, rfl⟩
  split at h
  · cases h
    exact fun k p => ⟨0, rfl⟩
  · cases h

theorem reachable_virusNat {O : Oracle} {s : AgentBasedModel × ℕ × ℕ}
    (h : Reachable O s) : VirusNat s.1 := by
  induction h with
  | ctor n_x n_y mdl M t u hmk => exact mk_natGrid hmk
  | call s s' _ hcall ih => exact modelCall_natGrid ih hcall

/-! ### Concrete models and oracles used to instantiate the theorems -/

/-- A fixed concrete oracle: every Poisson draw is 0, every direction is
`left`, every Bernoulli draw is 0, every solver output is the zero field
and the exponential oracle is constantly 1. -/
def oracleZero : Oracle :=
  { pois := fun _ => 0
    dir := fun _ => Dir.left
    bern := fun _ _ => false
    conc := fun _ => fun _ => 0
    exp := fun _ => 1 }

/-- The freshly constructed 20x20 signalling-mode model. -/
def modelSig20 : AgentBasedModel :=
  { n_x := 20, n_y := 20, num_virus := 1, model := "signalling",
    virus_grid := fun _ => fun _ => 0,
    conc_grid := fun _ => 0,
    wolbachia_grid := fun _ => 0,
    virus_diffuse_rate := fun _ => none,
    virus_carrying_capacity := fun _ => none,
    virus_growth_rate := fun _ => none,
    virus_grid_history := [],
    concentration_history := [] }

/-- The freshly constructed 16x16 genetic-mode model. -/
def modelGen16 : AgentBasedModel :=
  { n_x := 16, n_y := 16, num_virus := 2, model := "genetic",
    virus_grid := fun _ => fun _ => 0,
    conc_grid := fun _ => 0,
    wolbachia_grid := fun _ => 0,
    virus_diffuse_rate := fun _ => none,
    virus_carrying_capacity := fun _ => none,
    virus_growth_rate := fun _ => none,
    virus_grid_history := [],
    concentration_history := [] }

/-! ### Claim C1 -/

/-- Claim C1: for every grid state reachable from a constructor call by
any sequence of successful initialization calls and `run_time_step`
calls (any mode, any valid parameters — diffuse rate ≥ 0, carrying
capacity > 0 — and any stochastic draws), every entry of every virus
grid is non-negative: negative growth is clamped at 0 and every
diffusion decrement hits a cell currently holding the moving
individual. -/
theorem c1_virus_grid_nonneg (O : Oracle) (s : AgentBasedModel × ℕ × ℕ)
    (h : Reachable O s) (k : ℕ) (p : ℕ × ℕ) : 0 ≤ s.1.virus_grid k p :=
  natGrid_nonneg (reachable_virusNat h k) p

/-- Witness for C1: the freshly constructed signalling model is
reachable and its variant-0 grid is non-negative at the origin. -/
theorem c1_virus_grid_nonneg_witness : 0 ≤ modelSig20.virus_grid 0 (0, 0) :=
  c1_virus_grid_nonneg oracleZero (modelSig20, 0, 0)
    (Reachable.ctor 20 20 "signalling" modelSig20 0 0 rfl) 0 (0, 0)

/-! ### Claim C10 -/

/-- Claim C10: in every reachable state every entry of every virus grid
is an exact non-negative integer (a cast natural number), and the
Python truncation `int(v)` performed at the start of `_diffuse_virus`
equals `v` exactly. -/
theorem c10_virus_grid_integer (O : Oracle) (s : AgentBasedModel × ℕ × ℕ)
    (h : Reachable O s) (k : ℕ) (p : ℕ × ℕ) :
    ∃ n : ℕ, s.1.virus_grid k p = (n : ℚ) ∧
      (floorCount (s.1.virus_grid k p) : ℚ) = s.1.virus_grid k p := by
  obtain ⟨n, hn⟩ := reachable_virusNat h k p
  exact ⟨n, hn, by rw [hn, floorCount_natCast]⟩

/-- Witness for C10: the freshly constructed genetic model is reachable
and its variant-1 grid holds an exact integer at cell (3, 4). -/
theorem c10_virus_grid_integer_witness :
    ∃ n : ℕ, modelGen16.virus_grid 1 (3, 4) = (n : ℚ) ∧
      (floorCount (modelGen16.virus_grid 1 (3, 4)) : ℚ)
        = modelGen16.virus_grid 1 (3, 4) :=
  c10_virus_grid_integer oracleZero (modelGen16, 0, 0)
    (Reachable.ctor 16 16 "genetic" modelGen16 0 0 rfl) 1 (3, 4)

/-! ### Claim C2: population accounting under diffusion -/

/-- Total population of a grid over the real numpy cells
`[0, nx) x [0, ny)`. -/
def gridSum (nx ny : ℕ) (g : Grid) : ℚ :=
  ∑ p in Finset.range nx ×ˢ Finset.range ny, g p

theorem gridSum_update {nx ny : ℕ} {g : Grid} {c : ℕ × ℕ} {x : ℚ}
    (h1 : c.1 < nx) (h2 : c.2 < ny) :
    gridSum nx ny (Function.update g c x) = gridSum nx ny g - g c + x := by
  have hc : c ∈ Finset.range nx ×ˢ Finset.range ny := by
    rw [Finset.mem_product, Finset.mem_range, Finset.mem_range]
    exact ⟨h1, h2⟩
  unfold gridSum
  rw [Finset.sum_update_of_mem hc, ← Finset.erase_eq,
    Finset.sum_erase_eq_sub hc]
  ring

/-- Each hop decrements the source cell and increments the destination
exactly when it is in bounds, so a single individual's hop sequence
preserves the total population unless the individual exits the grid, in
which case the total drops by exactly 1. -/
theorem hopLoop_sum (nx ny i j : ℕ) (dirs : ℕ → Dir) :
    ∀ (n : ℕ) (c : ℕ × ℕ) (g : Grid) (t : ℕ), c.1 < nx → c.2 < ny →
      gridSum nx ny (hopLoop nx ny i j dirs n c g t).1
        = gridSum nx ny g
          - (if (hopLoop nx ny i j dirs n c g t).2.2 then 1 else 0) := by
  intro n
  induction n with
  | zero =>
    intro c g t _ _
    simp [hopLoop]
  | succ n ih =>
    intro c g t hc1 hc2
    have hg1 : gridSum nx ny (Function.update g c (g c - 1))
        = gridSum nx ny g - 1 := by
      rw [gridSum_update hc1 hc2]
      ring
    simp only [hopLoop]
    split
    · rename_i hb
      obtain ⟨hx0, hxn, hy0, hyn⟩ := hb
      have hnc1 : ((i : ℤ) + (dirDelta (dirs t)).1).toNat < nx := by omega
      have hnc2 : ((j : ℤ) + (dirDelta (dirs t)).2).toNat < ny := by omega
      rw [ih _ _ (t + 1) hnc1 hnc2]
      rw [gridSum_update hnc1 hnc2, hg1]
      ring
    · simp only []
      rw [hg1]
      norm_num

/-- Population accounting for the individual loop: the total population
after diffusing `m` individuals out of cell `(i, j)` is the total before
minus the number of individuals that exited the grid. -/
theorem indivLoop_sum (nx ny : ℕ) (pois : ℕ → ℕ) (dirs : ℕ → Dir)
    {i j : ℕ} (hi : i < nx) (hj : j < ny) :
    ∀ (m : ℕ) (g : Grid) (t : ℕ),
      gridSum nx ny (indivLoop nx ny pois dirs i j m g t).1
        = gridSum nx ny g
          - ((indivLoop nx ny pois dirs i j m g t).2.2 : ℚ) := by
  intro m
  induction m with
  | zero =>
    intro g t
    simp [indivLoop]
  | succ m ih =>
    intro g t
    have hhop := hopLoop_sum nx ny i j dirs (pois t) (i, j) g (t + 1) hi hj
    simp only [indivLoop]
    rw [ih _ _]
    rw [hhop]
    rcases hex : (hopLoop nx ny i j dirs (pois t) (i, j) g (t + 1)).2.2
      with _ | _
    · simp [hex]
    · simp only [hex, if_pos]
      push_cast
      ring

/-- Claim C2: (a) a call of `_diffuse_virus` on any in-bounds cell
conserves the total population of the diffused variant's grid up to
exactly the number of individuals whose hop destination fell outside the
grid bounds during that pass; (b) an individual at edge cell `(0, j)`
that draws direction `left` is removed immediately — the hop loop
reports it exited and the total strictly decreases by 1, with no
wraparound. -/
theorem c2_diffusion_conservation :
    (∀ (M : AgentBasedModel) (O : Oracle) (k i j t : ℕ)
       (M' : AgentBasedModel) (t' ex : ℕ),
       i < M.n_x → j < M.n_y →
       diffuse_virus M O k i j t = some (M', t', ex) →
       gridSum M.n_x M.n_y (M.virus_grid k)
         = gridSum M.n_x M.n_y (M'.virus_grid k) + (ex : ℚ)) ∧
    (∀ (nx ny : ℕ) (dirs : ℕ → Dir) (g : Grid) (n j t : ℕ),
       0 < nx → j < ny → dirs t = Dir.left →
       (hopLoop nx ny 0 j dirs (n + 1) (0, j) g t).2.2 = true ∧
       gridSum nx ny (hopLoop nx ny 0 j dirs (n + 1) (0, j) g t).1
         = gridSum nx ny g - 1) := by
  constructor
  · intro M O k i j t M' t' ex hi hj h
    simp only [diffuse_virus] at h
    by_cases h0 : floorCount (M.virus_grid k (i, j)) = 0
    · rw [if_pos h0] at h
      cases h
      norm_num
    · rw [if_neg h0, Option.bind_eq_some] at h
      obtain ⟨lam, -, h⟩ := h
      by_cases hneg : lam < 0
      · rw [if_pos hneg] at h
        cases h
      · simp only [if_neg hneg, Option.some.injEq, Prod.mk.injEq] at h
        obtain ⟨hM', -, hex⟩ := h
        subst hM'
        subst hex
        simp only [Function.update_same]
        rw [indivLoop_sum M.n_x M.n_y O.pois O.dir hi hj]
        ring
  · intro nx ny dirs g n j t hnx hj hdir
    have hred : hopLoop nx ny 0 j dirs (n + 1) (0, j) g t
        = (Function.update g (0, j) (g (0, j) - 1), t + 1, true) := by
      simp only [hopLoop, hdir, dirDelta]
      norm_num
    rw [hred]
    refine ⟨rfl, ?_⟩
    rw [gridSum_update hnx hj]
    ring

/-- Oracle for concrete diffusion runs: every Poisson draw is 1 and
every direction is `left`. -/
def oracleLeft : Oracle :=
  { pois := fun _ => 1
    dir := fun _ => Dir.left
    bern := fun _ _ => false
    conc := fun _ => fun _ => 0
    exp := fun _ => 1 }

/-- A 1x1 signalling-mode model holding a single individual at the
origin, with all three variant-0 parameters set. -/
def modelOne : AgentBasedModel :=
  { n_x := 1, n_y := 1, num_virus := 1, model := "signalling",
    virus_grid := fun k => fun p => if k = 0 ∧ p = (0, 0) then 1 else 0,
    conc_grid := fun _ => 0,
    wolbachia_grid := fun _ => 0,
    virus_diffuse_rate := fun _ => some 1,
    virus_carrying_capacity := fun _ => some 2,
    virus_growth_rate := fun _ => some 1,
    virus_grid_history := [],
    concentration_history := [] }

/-- The state `modelOne` reaches after its single individual hops left
off the 1x1 grid. -/
def modelOneDiffused : AgentBasedModel :=
  { modelOne with
      virus_grid := Function.update modelOne.virus_grid 0
        (Function.update (modelOne.virus_grid 0) (0, 0)
          (modelOne.virus_grid 0 (0, 0) - 1)) }

/-- Witness for C2: on the 1x1 model the single individual draws one
hop to the left, exits, and the total population drops from 1 to 0 —
conservation with exactly one boundary exit. -/
theorem c2_diffusion_conservation_witness :
    gridSum modelOne.n_x modelOne.n_y (modelOne.virus_grid 0)
      = gridSum modelOne.n_x modelOne.n_y (modelOneDiffused.virus_grid 0)
        + ((1 : ℕ) : ℚ) ∧
    (hopLoop 1 1 0 0 oracleLeft.dir (0 + 1) (0, 0)
      (modelOne.virus_grid 0) 5).2.2 = true := by
  constructor
  · exact c2_diffusion_conservation.1 modelOne oracleLeft 0 0 0 0
      modelOneDiffused 2 1 (by decide) (by decide) (by rfl)
  · exact (c2_diffusion_conservation.2 1 1 oracleLeft.dir
      (modelOne.virus_grid 0) 0 0 5 (by decide) (by decide) rfl).1

/-! ### Frame conditions of the per-step update -/

/-- Everything except the virus grids is untouched: grid dimensions,
mode, wolbachia grid, concentration grid, the three parameter
dictionaries and both histories agree between `M` and `M'`. -/
def Frame (M M' : AgentBasedModel) : Prop :=
  M'.n_x = M.n_x ∧ M'.n_y = M.n_y ∧ M'.num_virus = M.num_virus ∧
  M'.model = M.model ∧ M'.wolbachia_grid = M.wolbachia_grid ∧
  M'.conc_grid = M.conc_grid ∧
  M'.virus_diffuse_rate = M.virus_diffuse_rate ∧
  M'.virus_growth_rate = M.virus_growth_rate ∧
  M'.virus_carrying_capacity = M.virus_carrying_capacity ∧
  M'.virus_grid_history = M.virus_grid_history ∧
  M'.concentration_history = M.concentration_history

theorem frame_refl (M : AgentBasedModel) : Frame M M :=
  ⟨rfl, rfl, rfl, rfl, rfl, rfl, rfl, rfl, rfl, rfl, rfl⟩

theorem frame_trans {M1 M2 M3 : AgentBasedModel}
    (h1 : Frame M1 M2) (h2 : Frame M2 M3) : Frame M1 M3 := by
  obtain ⟨a1, a2, a3, a4, a5, a6, a7, a8, a9, a10, a11⟩ := h1
  obtain ⟨b1, b2, b3, b4, b5, b6, b7, b8, b9, b10, b11⟩ := h2
  exact ⟨b1.trans a1, b2.trans a2, b3.trans a3, b4.trans a4, b5.trans a5,
    b6.trans a6, b7.trans a7, b8.trans a8, b9.trans a9, b10.trans a10,
    b11.trans a11⟩

theorem setCell_frame (M : AgentBasedModel) (k : ℕ) (p : ℕ × ℕ) (x : ℚ) :
    Frame M (setCell M k p x) :=
  ⟨rfl, rfl, rfl, rfl, rfl, rfl, rfl, rfl, rfl, rfl, rfl⟩

theorem grow_virus_frame {M : AgentBasedModel} {O : Oracle}
    {k i j t : ℕ} {M' : AgentBasedModel} {t' : ℕ}
    (h : grow_virus M O k i j t = some (M', t')) : Frame M M' := by
  simp only [grow_virus, Option.bind_eq_some] at h
  obtain ⟨r, -, K, -, h⟩ := h
  split at h
  · split at h
    · cases h
      exact setCell_frame M k (i, j) _
    · split at h
      · cases h
        exact setCell_frame M 1 (i, j) _
      · cases h
        exact setCell_frame M k (i, j) _
  · split at h
    · cases h
      exact setCell_frame M k (i, j) _
    · cases h
      exact frame_refl M

theorem diffuse_virus_frame {M : AgentBasedModel} {O : Oracle}
    {k i j t : ℕ} {M' : AgentBasedModel} {t' ex : ℕ}
    (h : diffuse_virus M O k i j t = some (M', t', ex)) : Frame M M' := by
  simp only [diffuse_virus] at h
  split at h
  · cases h
    exact frame_refl M
  · rw [Option.bind_eq_some] at h
    obtain ⟨lam, -, h⟩ := h
    split at h
    · cases h
    · simp only [Option.some.injEq, Prod.mk.injEq] at h
      obtain ⟨hM', -⟩ := h
      subst hM'
      exact ⟨rfl, rfl, rfl, rfl, rfl, rfl, rfl, rfl, rfl, rfl, rfl⟩

theorem cellUpdate_frame {O : Oracle} {k : ℕ}
    {Mt Mt' : AgentBasedModel × ℕ} {ij : ℕ × ℕ}
    (h : cellUpdate O k Mt ij = some Mt') : Frame Mt.1 Mt'.1 := by
  simp only [cellUpdate] at h
  split at h
  · rw [Option.bind_eq_some] at h
    obtain ⟨Mt1, hg, h⟩ := h
    rw [Option.map_eq_some'] at h
    obtain ⟨r, hd, h⟩ := h
    subst h
    exact frame_trans (grow_virus_frame hg) (diffuse_virus_frame hd)
  · cases h
    exact frame_refl _

theorem cellsLoop_frame {O : Oracle} {k : ℕ} :
    ∀ (l : List (ℕ × ℕ)) (Mt Mt' : AgentBasedModel × ℕ),
      cellsLoop O k l Mt = some Mt' → Frame Mt.1 Mt'.1 := by
  intro l
  induction l with
  | nil =>
    intro Mt Mt' h
    cases h
    exact frame_refl _
  | cons ij rest ih =>
    intro Mt Mt' h
    rw [cellsLoop, Option.bind_eq_some] at h
    obtain ⟨Mt1, hc, h⟩ := h
    exact frame_trans (cellUpdate_frame hc) (ih Mt1 Mt' h)

theorem virusLoop_frame {O : Oracle} :
    ∀ (l : List ℕ) (Mt Mt' : AgentBasedModel × ℕ),
      virusLoop O l Mt = some Mt' → Frame Mt.1 Mt'.1 := by
  intro l
  induction l with
  | nil =>
    intro Mt Mt' h
    cases h
    exact frame_refl _
  | cons k rest ih =>
    intro Mt Mt' h
    rw [virusLoop, Option.bind_eq_some] at h
    obtain ⟨Mt1, hu, h⟩ := h
    exact frame_trans (cellsLoop_frame _ _ _ hu) (ih Mt1 Mt' h)

/-! ### Claim C9 -/

/-- Claim C9: `run_time_step` never changes the bacterium (wolbachia)
grid, the grid dimensions, the mode or the parameter dictionaries, and
in genetic mode (`num_virus = 2`) it also leaves the concentration grid
and the concentration history exactly as they were — its only effects
are on the virus grids, the histories and (in signalling mode) the
concentration field. -/
theorem c9_run_time_step_frame (M : AgentBasedModel) (O : Oracle)
    (t u : ℕ) (M' : AgentBasedModel) (t' u' : ℕ)
    (h : run_time_step M O t u = some (M', t', u')) :
    M'.wolbachia_grid = M.wolbachia_grid ∧ M'.n_x = M.n_x ∧
    M'.n_y = M.n_y ∧ M'.num_virus = M.num_virus ∧ M'.model = M.model ∧
    M'.virus_diffuse_rate = M.virus_diffuse_rate ∧
    M'.virus_growth_rate = M.virus_growth_rate ∧
    M'.virus_carrying_capacity = M.virus_carrying_capacity ∧
    (M.num_virus = 2 → M'.conc_grid = M.conc_grid ∧
      M'.concentration_history = M.concentration_history) := by
  rw [run_time_step, Option.bind_eq_some] at h
  obtain ⟨Mt1, hv, h⟩ := h
  obtain ⟨f1, f2, f3, f4, f5, f6, f7, f8, f9, f10, f11⟩ :=
    virusLoop_frame _ _ _ hv
  split at h
  · rename_i hone
    cases h
    refine ⟨f5, f1, f2, f3, f4, f7, f8, f9, fun h2 => ?_⟩
    rw [h2] at f3
    rw [f3] at hone
    cases hone
  · cases h
    exact ⟨f5, f1, f2, f3, f4, f7, f8, f9, fun _ => ⟨f6, f11⟩⟩

/-- The freshly constructed 1x1 genetic-mode model. -/
def modelGen1 : AgentBasedModel :=
  { n_x := 1, n_y := 1, num_virus := 2, model := "genetic",
    virus_grid := fun _ => fun _ => 0,
    conc_grid := fun _ => 0,
    wolbachia_grid := fun _ => 0,
    virus_diffuse_rate := fun _ => none,
    virus_carrying_capacity := fun _ => none,
    virus_growth_rate := fun _ => none,
    virus_grid_history := [],
    concentration_history := [] }

/-- `modelGen1` after one time step: both cells are empty, so only the
virus history is appended. -/
def modelGen1Stepped : AgentBasedModel :=
  { modelGen1 with virus_grid_history :=
      modelGen1.virus_grid_history ++ [modelGen1.virus_grid] }

/-- Witness for C9: one concrete genetic-mode time step leaves the
wolbachia grid, the concentration grid and the concentration history
untouched. -/
theorem c9_run_time_step_frame_witness :
    modelGen1Stepped.wolbachia_grid = modelGen1.wolbachia_grid ∧
    modelGen1Stepped.n_x = modelGen1.n_x ∧
    modelGen1Stepped.n_y = modelGen1.n_y ∧
    modelGen1Stepped.num_virus = modelGen1.num_virus ∧
    modelGen1Stepped.model = modelGen1.model ∧
    modelGen1Stepped.virus_diffuse_rate = modelGen1.virus_diffuse_rate ∧
    modelGen1Stepped.virus_growth_rate = modelGen1.virus_growth_rate ∧
    modelGen1Stepped.virus_carrying_capacity
      = modelGen1.virus_carrying_capacity ∧
    (modelGen1.num_virus = 2 →
      modelGen1Stepped.conc_grid = modelGen1.conc_grid ∧
      modelGen1Stepped.concentration_history
        = modelGen1.concentration_history) :=
  c9_run_time_step_frame modelGen1 oracleZero 0 0 modelGen1Stepped 0 0
    (by rfl)

/-! ### Claim C8 -/

/-- Claim C8 (amended): `run_time_step` appends to the concentration
history only in signalling mode — in genetic mode (`num_virus = 2`) a
time step leaves `concentration_history` unchanged — but
`initialize_wolbachia` appends one concentration snapshot in every mode,
so after bacteria initialization the history is non-empty even for a
genetic-mode model. -/
theorem c8_concentration_history :
    (∀ (M : AgentBasedModel) (O : Oracle) (t u : ℕ)
       (M' : AgentBasedModel) (t' u' : ℕ), M.num_virus = 2 →
       run_time_step M O t u = some (M', t', u') →
       M'.concentration_history = M.concentration_history) ∧
    (∀ (M : AgentBasedModel) (O : Oracle) (p : ℚ) (u : ℕ)
       (M' : AgentBasedModel) (u' : ℕ),
       init_wolbachia M O p u = some (M', u') →
       M'.concentration_history = M.concentration_history ++ [O.conc u]) := by
  constructor
  · intro M O t u M' t' u' h2 h
    rw [run_time_step, Option.bind_eq_some] at h
    obtain ⟨Mt1, hv, h⟩ := h
    obtain ⟨-, -, f3, -, -, -, -, -, -, -, f11⟩ := virusLoop_frame _ _ _ hv
    split at h
    · rename_i hone
      rw [h2] at f3
      rw [f3] at hone
      cases hone
    · cases h
      exact f11
  · intro M O p u M' u' h
    simp only [init_wolbachia] at h
    split at h
    · cases h
    split at h
    · cases h
    simp only [Option.some.injEq, Prod.mk.injEq] at h
    obtain ⟨hM', -⟩ := h
    subst hM'
    rfl

/-- The freshly constructed 15x15 genetic-mode model. -/
def modelGen15 : AgentBasedModel :=
  { n_x := 15, n_y := 15, num_virus := 2, model := "genetic",
    virus_grid := fun _ => fun _ => 0,
    conc_grid := fun _ => 0,
    wolbachia_grid := fun _ => 0,
    virus_diffuse_rate := fun _ => none,
    virus_carrying_capacity := fun _ => none,
    virus_growth_rate := fun _ => none,
    virus_grid_history := [],
    concentration_history := [] }

/-- `modelGen15` after `initialize_wolbachia` with `p = 0` under
`oracleZero`: the wolbachia block is drawn, the concentration grid is
recomputed and one concentration snapshot is appended. -/
def modelGen15W : AgentBasedModel :=
  { modelGen15 with
      wolbachia_grid := fun q =>
        if q.1 < 15 ∧ q.2 < 15 then (if oracleZero.bern 0 q then 1 else 0)
        else modelGen15.wolbachia_grid q
      conc_grid := oracleZero.conc 0
      concentration_history :=
        modelGen15.concentration_history ++ [oracleZero.conc 0] }

/-- Counterexample to C8 as stated: a model constructed in genetic mode
has a non-empty concentration history after the single initialization
call `initialize_wolbachia(p = 0)` — the history is not populated only
in single-variant mode. -/
theorem c8_concentration_history_counterexample :
    mkAgentBasedModel 15 15 "genetic" = some modelGen15 ∧
    init_wolbachia modelGen15 oracleZero 0 0 = some (modelGen15W, 1) ∧
    modelGen15W.concentration_history ≠ [] :=
  ⟨by rfl, by rfl, by simp [modelGen15W, modelGen15]⟩

/-- Witness for C8: a concrete genetic-mode time step preserves the
concentration history, and a concrete `initialize_wolbachia` call
appends exactly one snapshot. -/
theorem c8_concentration_history_witness :
    modelGen1Stepped.concentration_history
      = modelGen1.concentration_history ∧
    modelGen15W.concentration_history
      = modelGen15.concentration_history ++ [oracleZero.conc 0] :=
  ⟨c8_concentration_history.1 modelGen1 oracleZero 0 0 modelGen1Stepped
      0 0 rfl (by rfl),
   c8_concentration_history.2 modelGen15 oracleZero 0 0 modelGen15W 1
      (by rfl)⟩

/-! ### Claim C4 -/

/-- Claim C4 (amended): in genetic mode, whenever the computed growth
for variant `k` at `(i, j)` is positive and the cell carries wolbachia,
the Poisson increment is credited to `VirusField[1]`: variant 1's grid
gains the draw at `(i, j)` and variant 0's grid is left entirely
unchanged by the growth step — so for `k = 0` the growing variant's own
grid is untouched, while for `k = 1` the growing variant's grid *is*
`VirusField[1]` and does receive the increment.  When the cell does not
carry wolbachia the increment is added to `VirusField[k]` itself. -/
theorem c4_growth_routing (M : AgentBasedModel) (O : Oracle)
    (k i j t : ℕ) (r K : ℚ) (h2 : M.num_virus = 2)
    (hr : M.virus_growth_rate k = some r)
    (hK : M.virus_carrying_capacity k = some K)
    (hpos : 0 < growthExpr M O k (i, j) r K) :
    (M.wolbachia_grid (i, j) = 1 →
      grow_virus M O k i j t
        = some (setCell M 1 (i, j)
            (M.virus_grid 1 (i, j) + O.pois t), t + 1) ∧
      (setCell M 1 (i, j)
          (M.virus_grid 1 (i, j) + O.pois t)).virus_grid 1 (i, j)
        = M.virus_grid 1 (i, j) + O.pois t ∧
      (setCell M 1 (i, j)
          (M.virus_grid 1 (i, j) + O.pois t)).virus_grid 0
        = M.virus_grid 0) ∧
    (¬M.wolbachia_grid (i, j) = 1 →
      grow_virus M O k i j t
        = some (setCell M k (i, j)
            (M.virus_grid k (i, j) + O.pois t), t + 1)) := by
  have hne : ¬M.num_virus = 1 := by
    rw [h2]
    decide
  constructor
  · intro hw
    refine ⟨?_, ?_, ?_⟩
    · rw [grow_virus, hr, hK]
      simp only [Option.some_bind]
      rw [if_pos hpos, if_neg hne, if_pos hw]
    · simp [setCell, Function.update_same]
    · simp [setCell, Function.update_apply]
  · intro hw
    rw [grow_virus, hr, hK]
    simp only [Option.some_bind]
    rw [if_pos hpos, if_neg hne, if_neg hw]

/-- A 1x1 genetic-mode model whose single cell carries wolbachia and
one modified-variant (variant 1) individual, with all parameters set. -/
def modelWolb : AgentBasedModel :=
  { n_x := 1, n_y := 1, num_virus := 2, model := "genetic",
    virus_grid := fun k => fun p => if k = 1 ∧ p = (0, 0) then 1 else 0,
    conc_grid := fun _ => 0,
    wolbachia_grid := fun _ => 1,
    virus_diffuse_rate := fun _ => some 1,
    virus_carrying_capacity := fun _ => some 3,
    virus_growth_rate := fun _ => some 3,
    virus_grid_history := [],
    concentration_history := [] }

theorem modelWolb_growth_pos :
    0 < growthExpr modelWolb oracleLeft 1 (0, 0) 3 3 := by
  norm_num [growthExpr, modelWolb, Finset.sum_range_succ,
    show ¬("genetic" = "signalling") from by decide]

/-- Counterexample to C4 as stated: for `k = 1` (growth computed for the
modified variant itself, in a wolbachia cell with positive growth and a
Poisson draw of 1), `VirusField[k] = VirusField[1]` is *not* left
unchanged by the growth step — it goes from 1 to 2. -/
theorem c4_growth_routing_counterexample :
    modelWolb.wolbachia_grid (0, 0) = 1 ∧
    modelWolb.virus_grid 1 (0, 0) = 1 ∧
    (grow_virus modelWolb oracleLeft 1 0 0 0).map
        (fun x => x.1.virus_grid 1 (0, 0)) = some 2 := by
  refine ⟨rfl, by norm_num [modelWolb], ?_⟩
  rw [grow_virus]
  norm_num [modelWolb, oracleLeft, growthExpr, Finset.sum_range_succ,
    setCell, Function.update_same]

/-- Witness for C4: instantiating the routing theorem at the concrete
wolbachia-carrying model, with `k = 1` and a positive computed
growth. -/
theorem c4_growth_routing_witness :
    grow_virus modelWolb oracleLeft 1 0 0 0
      = some (setCell modelWolb 1 (0, 0)
          (modelWolb.virus_grid 1 (0, 0) + oracleLeft.pois 0), 1) ∧
    (setCell modelWolb 1 (0, 0)
        (modelWolb.virus_grid 1 (0, 0) + oracleLeft.pois 0)).virus_grid
        1 (0, 0)
      = modelWolb.virus_grid 1 (0, 0) + oracleLeft.pois 0 ∧
    (setCell modelWolb 1 (0, 0)
        (modelWolb.virus_grid 1 (0, 0) + oracleLeft.pois 0)).virus_grid 0
      = modelWolb.virus_grid 0 :=
  (c4_growth_routing modelWolb oracleLeft 1 0 0 0 3 3 rfl rfl rfl
    modelWolb_growth_pos).1 rfl

/-! ### Claim C3 -/

/-- A 1x1 signalling-mode model whose single cell holds `v` individuals,
with growth rate 1 and carrying capacity `2 * v`, so the computed growth
is `v / 2 > 0` for `v > 0`. -/
def c3Model (v : ℕ) : AgentBasedModel :=
  { n_x := 1, n_y := 1, num_virus := 1, model := "signalling",
    virus_grid := fun k => fun p => if k = 0 ∧ p = (0, 0) then (v : ℚ) else 0,
    conc_grid := fun _ => 0,
    wolbachia_grid := fun _ => 0,
    virus_diffuse_rate := fun _ => some 1,
    virus_carrying_capacity := fun _ => some ((2 * v : ℕ) : ℚ),
    virus_growth_rate := fun _ => some 1,
    virus_grid_history := [],
    concentration_history := [] }

/-- Oracle for the C3 runs: the growth Poisson draw (at counter 0) is
`g`, every later Poisson draw is 1, and every direction is `left` — so
on a 1x1 grid every diffused individual exits on its first hop. -/
def c3Oracle (g : ℕ) : Oracle :=
  { pois := fun t => if t = 0 then g else 1
    dir := fun _ => Dir.left
    bern := fun _ _ => false
    conc := fun _ => fun _ => 0
    exp := fun _ => 1 }

theorem c3_growthExpr (v g : ℕ) (hv : 0 < v) :
    growthExpr (c3Model v) (c3Oracle g) 0 (0, 0) 1 ((2 * v : ℕ) : ℚ)
      = (v : ℚ) / 2 := by
  have hv' : (v : ℚ) ≠ 0 := Nat.cast_ne_zero.mpr hv.ne'
  rw [growthExpr]
  simp only [c3Model, c3Oracle, Finset.sum_range_one, if_pos]
  norm_num
  field_simp
  ring

/-- On the 1x1 grid, with every hop drawn `left` and every per-individual
Poisson draw (at counters at least 1) equal to 1, each of the `m`
individuals exits on its first hop: the loop reports exactly `m` exits
and consumes two draws per individual. -/
theorem c3_indivLoop_exits (g : ℕ) :
    ∀ (m : ℕ) (gr : Grid) (t : ℕ), 1 ≤ t →
      (indivLoop 1 1 (c3Oracle g).pois (c3Oracle g).dir 0 0 m gr t).2.2 = m ∧
      (indivLoop 1 1 (c3Oracle g).pois (c3Oracle g).dir 0 0 m gr t).2.1
        = t + 2 * m := by
  intro m
  induction m with
  | zero =>
    intro gr t _
    simp [indivLoop]
  | succ m ih =>
    intro gr t ht
    have hp : (c3Oracle g).pois t = 1 := by
      simp only [c3Oracle]
      rw [if_neg (by omega)]
    have hhop : hopLoop 1 1 0 0 (c3Oracle g).dir 1 (0, 0) gr (t + 1)
        = (Function.update gr (0, 0) (gr (0, 0) - 1), t + 2, true) := by
      simp only [hopLoop, c3Oracle, dirDelta]
      norm_num
    simp only [indivLoop, hp, hhop]
    obtain ⟨h1, h2⟩ := ih (Function.update gr (0, 0) (gr (0, 0) - 1))
      (t + 2) (by omega)
    rw [h1, h2]
    constructor
    · simp
    · omega

/-- Claim C3 (amended): within one per-cell update, the diffusion loop
iterates the population of the cell as it stands *after* growth's
mutation in the same step — `_diffuse_virus` re-reads the live cell —
not the pre-growth snapshot.  Concretely: growth raises the cell from
`v` to `v + g`, and the subsequent diffusion pass processes `v + g`
individuals (observed here as `v + g` boundary exits on the 1x1 grid,
where every individual draws one hop and exits). -/
theorem c3_diffusion_count (v
 g : ℕ) (hv : 0 < v) :
    grow_virus (c3Model v) (c3Oracle g) 0 0 0 0
      = some (setCell (c3Model v) 0 (0, 0) ((v : ℚ) + g), 1) ∧
    (setCell (c3Model v) 0 (0, 0) ((v : ℚ) + g)).virus_grid 0 (0, 0)
      = (v : ℚ) + g ∧
    (diffuse_virus (setCell (c3Model v) 0 (0, 0) ((v : ℚ) + g))
        (c3Oracle g) 0 0 0 1).map (fun r => r.2.2) = some (v + g) := by
  have hval : (c3Model v).virus_grid 0 (0, 0) = (v : ℚ) := by
    simp [c3Model]
  refine ⟨?_, ?_, ?_⟩
  · rw [grow_virus]
    have hr : (c3Model v).virus_growth_rate 0 = some 1 := rfl
    have hK : (c3Model v).virus_carrying_capacity 0
        = some ((2 * v : ℕ) : ℚ) := rfl
    rw [hr, hK]
    simp only [Option.some_bind]
    rw [if_pos (by rw [c3_growthExpr v g hv]; positivity)]
    rw [if_pos (show (c3Model v).num_virus = 1 from rfl)]
    rw [hval]
    rfl
  · simp [setCell, Function.update_same]
  · have hW : (setCell (c3Model v) 0 (0, 0)
        ((v : ℚ) + g)).virus_grid 0 (0, 0) = ((v + g : ℕ) : ℚ) := by
      simp [setCell, Function.update_same, Nat.cast_add]
    rw [diffuse_virus]
    rw [hW, floorCount_natCast]
    rw [if_neg (by omega)]
    have hrate : (setCell (c3Model v) 0 (0, 0)
        ((v : ℚ) + g)).virus_diffuse_rate 0 = some 1 := rfl
    rw [hrate]
    simp only [Option.some_bind]
    rw [if_neg (by norm_num)]
    obtain ⟨h1, -⟩ := c3_indivLoop_exits g (v + g)
      ((setCell (c3Model v) 0 (0, 0) ((v : ℚ) + g)).virus_grid 0) 1
      (le_refl 1)
    simp only [Option.map_some']
    exact congrArg some h1

/-- Counterexample to C3 as stated: a cell whose pre-growth population
is 1 has its diffusion loop iterate 2 individuals (2 boundary exits)
after growth added 1 — the loop count is the post-growth population,
not the pre-growth snapshot. -/
theorem c3_diffusion_count_counterexample :
    (c3Model 1).virus_grid 0 (0, 0) = ((1 : ℕ) : ℚ) ∧
    ((grow_virus (c3Model 1) (c3Oracle 1) 0 0 0 0).bind fun x =>
      (diffuse_virus x.1 (c3Oracle 1) 0 0 0 x.2).map fun r => r.2.2)
      = some 2 := by
  constructor
  · simp [c3Model]
  · have hg : grow_virus (c3Model 1) (c3Oracle 1) 0 0 0 0
        = some (setCell (c3Model 1) 0 (0, 0) ((1 : ℚ) + 1), 1) := by
      rw [grow_virus]
      have hr : (c3Model 1).virus_growth_rate 0 = some 1 := rfl
      have hK : (c3Model 1).virus_carrying_capacity 0
          = some ((2 * 1 : ℕ) : ℚ) := rfl
      rw [hr, hK]
      simp only [Option.some_bind]
      rw [if_pos (by rw [c3_growthExpr 1 1 (by norm_num)]; norm_num)]
      rw [if_pos (show (c3Model 1).num_virus = 1 from rfl)]
      norm_num [c3Model, c3Oracle]
    rw [hg]
    simp only [Option.some_bind]
    have hW : (setCell (c3Model 1) 0 (0, 0)
        ((1 : ℚ) + 1)).virus_grid 0 (0, 0) = ((2 : ℕ) : ℚ) := by
      simp [setCell, Function.update_same]
      norm_num
    rw [diffuse_virus]
    rw [hW, floorCount_natCast]
    rw [if_neg (by omega)]
    have hrate : (setCell (c3Model 1) 0 (0, 0)
        ((1 : ℚ) + 1)).virus_diffuse_rate 0 = some 1 := rfl
    rw [hrate]
    simp only [Option.some_bind]
    rw [if_neg (by norm_num)]
    obtain ⟨h1, -⟩ := c3_indivLoop_exits 1 2
      ((setCell (c3Model 1) 0 (0, 0) ((1 : ℚ) + 1)).virus_grid 0) 1
      (le_refl 1)
    simp only [Option.map_some']
    exact congrArg some h1

/-- Witness for C3: the amended statement instantiated at `v = 2`,
`g = 3` — growth raises the cell from 2 to 5 and diffusion processes 5
individuals. -/
theorem c3_diffusion_count_witness :
    grow_virus (c3Model 2) (c3Oracle 3) 0 0 0 0
      = some (setCell (c3Model 2) 0 (0, 0) ((2 : ℚ) + 3), 1) ∧
    (setCell (c3Model 2) 0 (0, 0) ((2 : ℚ) + 3)).virus_grid 0 (0, 0)
      = (2 : ℚ) + 3 ∧
    (diffuse_virus (setCell (c3Model 2) 0 (0, 0) ((2 : ℚ) + 3))
        (c3Oracle 3) 0 0 0 1).map (fun r => r.2.2) = some (2 + 3) := by
  have h := c3_diffusion_count 2 3 (by norm_num)
  norm_num at h ⊢
  exact h

/-! ### Claim C5 -/

/-- Claim C5 (amended): `set_virus_parameters` performs no validation at
all — for every diffuse rate, growth rate, carrying capacity and variant
number (including negative rates, non-positive capacities and variant
indices that are not configured) it stores the three values in the
per-variant parameter dictionaries, changes nothing else, and never
reports a configuration error. -/
theorem c5_set_virus_parameters_stores (M : AgentBasedModel)
    (d g c : ℚ) (vn : ℕ) :
    (set_virus_parameters M d g c vn).virus_diffuse_rate vn = some d ∧
    (set_virus_parameters M d g c vn).virus_growth_rate vn = some g ∧
    (set_virus_parameters M d g c vn).virus_carrying_capacity vn
      = some c ∧
    (∀ k, k ≠ vn →
      (set_virus_parameters M d g c vn).virus_diffuse_rate k
          = M.virus_diffuse_rate k ∧
      (set_virus_parameters M d g c vn).virus_growth_rate k
          = M.virus_growth_rate k ∧
      (set_virus_parameters M d g c vn).virus_carrying_capacity k
          = M.virus_carrying_capacity k) ∧
    (set_virus_parameters M d g c vn).virus_grid = M.virus_grid ∧
    (set_virus_parameters M d g c vn).wolbachia_grid
      = M.wolbachia_grid ∧
    (set_virus_parameters M d g c vn).num_virus = M.num_virus := by
  refine ⟨?_, ?_, ?_, fun k hk => ⟨?_, ?_, ?_⟩, rfl, rfl, rfl⟩
  · simp [set_virus_parameters]
  · simp [set_virus_parameters]
  · simp [set_virus_parameters]
  · simp [set_virus_parameters, Function.update_apply, hk]
  · simp [set_virus_parameters, Function.update_apply, hk]
  · simp [set_virus_parameters, Function.update_apply, hk]

/-- Counterexample to C5 as stated: with a negative diffuse rate, a
non-positive carrying capacity and the unconfigured variant index 5 on a
single-variant model, `set_virus_parameters` does not fail — it silently
stores all three values. -/
theorem c5_set_virus_parameters_counterexample :
    modelSig20.num_virus = 1 ∧
    (set_virus_parameters modelSig20 (-1) 1 0 5).virus_diffuse_rate 5
      = some (-1) ∧
    (set_virus_parameters modelSig20 (-1) 1 0 5).virus_carrying_capacity 5
      = some 0 := by
  refine ⟨rfl, ?_, ?_⟩ <;> simp [set_virus_parameters, modelSig20]

/-- Witness for C5: the amended statement instantiated at a concrete
model and concrete parameter values. -/
theorem c5_set_virus_parameters_stores_witness :
    (set_virus_parameters modelGen16 1 2 3 0).virus_diffuse_rate 0
      = some 1 ∧
    (set_virus_parameters modelGen16 1 2 3 0).virus_growth_rate 0
      = some 2 ∧
    (set_virus_parameters modelGen16 1 2 3 0).virus_carrying_capacity 0
      = some 3 :=
  ⟨(c5_set_virus_parameters_stores modelGen16 1 2 3 0).1,
   (c5_set_virus_parameters_stores modelGen16 1 2 3 0).2.1,
   (c5_set_virus_parameters_stores modelGen16 1 2 3 0).2.2.1⟩

/-! ### Claim C6 -/

/-- Claim C6 (amended): `initialize_wolbachia` succeeds on grids whose
two dimensions are both at least 15 (with `p` in `[0, 1]`), filling the
fixed top-left 15x15 block with the Bernoulli draws, leaving every other
bacterium cell unchanged, recomputing the concentration grid and
appending one concentration snapshot.  There is no `min(15, n)`
clamping: on grids smaller than 15x15 the numpy broadcast of the fixed
`(15, 15)` sample array fails, so the call raises instead of
succeeding. -/
theorem c6_init_wolbachia (M : AgentBasedModel) (O : Oracle) (p : ℚ)
    (u : ℕ) (hx : 15 ≤ M.n_x) (hy : 15 ≤ M.n_y)
    (h0 : 0 ≤ p) (h1 : p ≤ 1) :
    ∃ M', init_wolbachia M O p u = some (M', u + 1) ∧
      (∀ q : ℕ × ℕ, q.1 < 15 ∧ q.2 < 15 →
        M'.wolbachia_grid q = (if O.bern u q then 1 else 0)) ∧
      (∀ q : ℕ × ℕ, ¬(q.1 < 15 ∧ q.2 < 15) →
        M'.wolbachia_grid q = M.wolbachia_grid q) ∧
      M'.conc_grid = O.conc u ∧
      M'.concentration_history
        = M.concentration_history ++ [O.conc u] ∧
      M'.virus_grid = M.virus_grid := by
  rw [init_wolbachia,
    if_neg (by push_neg; exact ⟨h0, h1⟩),
    if_neg (by push_neg; exact ⟨hx, hy⟩)]
  refine ⟨_, rfl, fun q hq => ?_, fun q hq => ?_, rfl, rfl, rfl⟩
  · simp only [if_pos hq]
  · simp only [if_neg hq]

/-- The freshly constructed 5x5 signalling-mode model. -/
def modelSig5 : AgentBasedModel :=
  { n_x := 5, n_y := 5, num_virus := 1, model := "signalling",
    virus_grid := fun _ => fun _ => 0,
    conc_grid := fun _ => 0,
    wolbachia_grid := fun _ => 0,
    virus_diffuse_rate := fun _ => none,
    virus_carrying_capacity := fun _ => none,
    virus_growth_rate := fun _ => none,
    virus_grid_history := [],
    concentration_history := [] }

/-- Counterexample to C6 as stated: on a 5x5 grid (smaller than 15x15)
with a perfectly valid `p = 1/2`, `initialize_wolbachia` fails — the
claim's `min(15, n_x) x min(15, n_y)` clamped fill does not exist. -/
theorem c6_init_wolbachia_counterexample :
    mkAgentBasedModel 5 5 "signalling" = some modelSig5 ∧
    init_wolbachia modelSig5 oracleZero (1 / 2) 0 = none := by
  refine ⟨by rfl, ?_⟩
  rw [init_wolbachia, if_neg (by norm_num),
    if_pos (Or.inl (by norm_num [modelSig5]))]

/-- Witness for C6: the amended statement instantiated on the 15x15
genetic model with `p = 1`. -/
theorem c6_init_wolbachia_witness :
    ∃ M', init_wolbachia modelGen15 oracleZero 1 0 = some (M', 1) ∧
      (∀ q : ℕ × ℕ, q.1 < 15 ∧ q.2 < 15 →
        M'.wolbachia_grid q = (if oracleZero.bern 0 q then 1 else 0)) ∧
      (∀ q : ℕ × ℕ, ¬(q.1 < 15 ∧ q.2 < 15) →
        M'.wolbachia_grid q = modelGen15.wolbachia_grid q) ∧
      M'.conc_grid = oracleZero.conc 0 ∧
      M'.concentration_history
        = modelGen15.concentration_history ++ [oracleZero.conc 0] ∧
      M'.virus_grid = modelGen15.virus_grid :=
  c6_init_wolbachia modelGen15 oracleZero 1 0
    (by norm_num [modelGen15]) (by norm_num [modelGen15])
    (by norm_num) (by norm_num)

/-! ### Claim C7 -/

/-- Claim C7 (amended): the constructor accepts every grid size without
rejecting or clamping anything; on grids with both dimensions at least
16, seeding the virus at the default location sets exactly cell
`(15, 15)` of the chosen variant's grid to 1 (all other entries of all
variants unchanged) and appends one deep-copied snapshot of the updated
grids to the virus history; on smaller grids `initialize_virus` itself
fails with an out-of-bounds index error rather than being prevented by
the constructor. -/
theorem c7_init_virus (M : AgentBasedModel) (vn : ℕ)
    (hvn : vn < M.num_virus) (hx : 15 < M.n_x) (hy : 15 < M.n_y) :
    ∃ M', init_virus M vn = some M' ∧
      M'.virus_grid vn (15, 15) = 1 ∧
      (∀ q : ℕ × ℕ, q ≠ (15, 15) →
        M'.virus_grid vn q = M.virus_grid vn q) ∧
      (∀ k, k ≠ vn → M'.virus_grid k = M.virus_grid k) ∧
      M'.virus_grid_history
        = M.virus_grid_history ++ [M'.virus_grid] ∧
      M'.concentration_history = M.concentration_history := by
  rw [init_virus, if_pos hvn, if_pos ⟨hx, hy⟩]
  refine ⟨_, rfl, ?_, fun q hq => ?_, fun k hk => ?_, rfl, rfl⟩
  · simp [setCell, Function.update_same]
  · simp [setCell, Function.update_apply, hq]
  · simp [setCell, Function.update_apply, hk]

/-- Counterexample to C7 as stated: the constructor happily accepts a
5x5 grid (it neither rejects nor clamps), and seeding the virus at the
default location `(15, 15)` then fails with an out-of-bounds access. -/
theorem c7_init_virus_counterexample :
    mkAgentBasedModel 5 5 "signalling" = some modelSig5 ∧
    init_virus modelSig5 0 = none := by
  refine ⟨by rfl, ?_⟩
  rw [init_virus, if_pos (by norm_num [modelSig5]),
    if_neg (by norm_num [modelSig5])]

/-- Witness for C7: the amended statement instantiated on the fresh
16x16 genetic model, seeding variant 0. -/
theorem c7_init_virus_witness :
    ∃ M', init_virus modelGen16 0 = some M' ∧
      M'.virus_grid 0 (15, 15) = 1 ∧
      (∀ q : ℕ × ℕ, q ≠ (15, 15) →
        M'.virus_grid 0 q = modelGen16.virus_grid 0 q) ∧
      (∀ k, k ≠ 0 → M'.virus_grid k = modelGen16.virus_grid k) ∧
      M'.virus_grid_history
        = modelGen16.virus_grid_history ++ [M'.virus_grid] ∧
      M'.concentration_history = modelGen16.concentration_history :=
  c7_init_virus modelGen16 0 (by norm_num [modelGen16])
    (by norm_num [modelGen16]) (by norm_num [modelGen16])

end Wolsim
